import Mathlib

/-
Verification development for the Intelliclima Home Assistant integration
(`custom_components/intelliclima`).  The Python client in `api.py` and the fan
platform in `fan.py` are shallowly embedded below: Python strings that undergo
character-level processing are modelled as `List Char`, machine bytes as `Nat`
with explicit masking, JSON values as an inductive type, fallible code as
`Except`, and the stateful client as explicit state passing over a transport
script.
-/

namespace Intelliclima

/-! ## Error taxonomy

The Python client signals failures through `IntelliclimaApiClientError` and
its subclasses `IntelliclimaApiClientAuthenticationError` and
`IntelliclimaApiClientCommunicationError`.  The distinct raise sites are kept
apart here as structured constructors so that theorems can talk about which
failure occurred. -/

inductive ApiError where
  /-- Raise sites of `IntelliclimaApiClientAuthenticationError`. -/
  | authentication (msg : String)
  /-- Raise sites of `IntelliclimaApiClientCommunicationError`. -/
  | communication (msg : String)
  /-- Raise site api.py:68-70, message beginning "Invalid ECO mode byte". -/
  | invalidEcoMode (mode : Int)
  /-- Raise site api.py:71-73, message beginning "Invalid ECO speed byte". -/
  | invalidEcoSpeed (speed : Int)
  /-- Raise site api.py:89-91, message beginning "Invalid ECO serial format". -/
  | invalidEcoSerial (serial : List Char)
  /-- Python ValueError escaping from bytes.fromhex (unreachable in practice). -/
  | hexDecodeFailure
  /-- Raise site api.py:431-436, unexpected ECO write response status. -/
  | unexpectedStatus (status : List Char)
  /-- Raise site api.py:439-444, ECO write acknowledged with unexpected serial. -/
  | serialMismatch (expected got : List Char)
  /-- Raise site api.py:446-451, ECO write acknowledged with unexpected trama. -/
  | tramaMismatch (expected got : List Char)
  /-- Raise site api.py:405-407, missing ECO serial. -/
  | missingSerial
  /-- Raise site api.py:112-115, unexpected payload format. -/
  | unexpectedPayload
  /-- Catch-all `IntelliclimaApiClientError` wrapping (api.py:527-529). -/
  | generalError (msg : String)
deriving DecidableEq

/-- Predicate for the spec's invalid-frame-field error class: the two raise
sites of `_eco_trama` that reject an out-of-range mode or speed byte. -/
def isFrameFieldError : ApiError → Bool
  | .invalidEcoMode _ => true
  | .invalidEcoSpeed _ => true
  | _ => false

/-! ## Checksum engine

Source `_crc8_eco` (api.py:53-63). -/

/-- Body of the 8-iteration inner loop of `_crc8_eco` (api.py:58-62): one
shift-and-conditionally-xor round on the running value. -/
def crc8Round (crc : Nat) : Nat :=
  if crc &&& 0x80 ≠ 0 then ((crc <<< 1) &&& 0xFF) ^^^ 0x31 else (crc <<< 1) &&& 0xFF

/-- Per-byte step of `_crc8_eco` (api.py:57-62): XOR the byte into the running
value, then run eight shift rounds. -/
def crc8Byte (crc byte : Nat) : Nat := crc8Round^[8] (crc ^^^ byte)

/-- Source `_crc8_eco` (api.py:53-63): CRC-8, polynomial 0x31, xor-out 0xC5,
over a byte list. -/
def _crc8_eco (payload : List Nat) : Nat := (payload.foldl crc8Byte 0x00) ^^^ 0xC5

/-- Reference CRC-8 computation transcribed from the spec's own wording
(spec §4.1): explicit counted recursion for the eight rounds and explicit
structural recursion over the bytes. -/
def crc8SpecRounds : Nat → Nat → Nat
  | c, 0 => c
  | c, n + 1 =>
      crc8SpecRounds
        (if c &&& 0x80 = 0 then (c <<< 1) &&& 0xFF else ((c <<< 1) &&& 0xFF) ^^^ 0x31) n

/-- Reference byte fold for the spec's CRC-8 description. -/
def crc8SpecFold : Nat → List Nat → Nat
  | c, [] => c
  | c, b :: bs => crc8SpecFold (crc8SpecRounds (c ^^^ b) 8) bs

/-- Reference CRC-8 with final xor-out, written from the spec's wording. -/
def crc8Spec (payload : List Nat) : Nat := crc8SpecFold 0x00 payload ^^^ 0xC5

theorem crc8Round_lt (c : Nat) : crc8Round c < 256 := by
  have hmask : ∀ x : Nat, x &&& 0xFF < 256 := by
    intro x
    have : x &&& 0xFF < 2 ^ 8 := Nat.and_lt_two_pow x (by norm_num)
    simpa using this
  unfold crc8Round
  split
  · have : ((c <<< 1) &&& 0xFF) ^^^ 0x31 < 2 ^ 8 :=
      Nat.xor_lt_two_pow (by simpa using hmask (c <<< 1)) (by norm_num)
    simpa using this
  · exact hmask (c <<< 1)

theorem crc8Byte_lt (c b : Nat) : crc8Byte c b < 256 := by
  unfold crc8Byte
  rw [show (8 : Nat) = 7 + 1 from rfl, Function.iterate_succ_apply']
  exact crc8Round_lt _

theorem foldl_crc8Byte_lt (l : List Nat) (c : Nat) (hc : c < 256) :
    l.foldl crc8Byte c < 256 := by
  induction l generalizing c with
  | nil => simpa using hc
  | cons b t ih => exact ih _ (crc8Byte_lt c b)

theorem crc8_lt (payload : List Nat) : _crc8_eco payload < 256 := by
  have h1 : payload.foldl crc8Byte 0x00 < 2 ^ 8 := by
    simpa using foldl_crc8Byte_lt payload 0 (by norm_num)
  have : (payload.foldl crc8Byte 0x00) ^^^ 0xC5 < 2 ^ 8 :=
    Nat.xor_lt_two_pow h1 (by norm_num)
  simpa [_crc8_eco] using this

theorem crc8SpecRounds_eq (n c : Nat) : crc8Round^[n] c = crc8SpecRounds c n := by
  induction n generalizing c with
  | zero => rfl
  | succ m ih =>
      rw [Function.iterate_succ_apply, crc8SpecRounds, ih]
      congr 1
      unfold crc8Round
      by_cases h : c &&& 0x80 = 0
      · simp [h]
      · simp [h]

theorem crc8SpecFold_eq (l : List Nat) (c : Nat) : l.foldl crc8Byte c = crc8SpecFold c l := by
  induction l generalizing c with
  | nil => rfl
  | cons b t ih =>
      rw [List.foldl_cons, crc8SpecFold, ← ih]
      show t.foldl crc8Byte (crc8Byte c b) = t.foldl crc8Byte (crc8SpecRounds (c ^^^ b) 8)
      rw [crc8Byte, crc8SpecRounds_eq]

/-! ## ECO frame codec

Source `_eco_trama`, `_normalize_eco_serial`, `_is_expected_eco_trama`
(api.py:66-103) and the acknowledgement check of `async_set_eco_state`
(api.py:403-459). -/

/-- Uppercase hex digit for a nibble, as produced by a Python "%02X" format. -/
def hexDigitU (n : Nat) : Char :=
  if n < 10 then Char.ofNat (48 + n) else Char.ofNat (55 + n)

/-- Two-digit uppercase rendering of a byte: Python f-string 02X formatting,
restricted to the validated range 0-255 in which it emits exactly two digits. -/
def hex2 (n : Nat) : List Char := [hexDigitU (n / 16), hexDigitU (n % 16)]

/-- Value of one hex character as accepted by Python bytes.fromhex. -/
def hexCharVal (c : Char) : Option Nat :=
  if '0' ≤ c ∧ c ≤ '9' then some (c.toNat - 48)
  else if 'A' ≤ c ∧ c ≤ 'F' then some (c.toNat - 55)
  else if 'a' ≤ c ∧ c ≤ 'f' then some (c.toNat - 87)
  else none

/-- Python bytes.fromhex on a character list: consume hex-digit pairs, failing
on a stray character or odd length (the whitespace tolerance of bytes.fromhex
is irrelevant here because `_eco_trama` only ever passes digits it built). -/
def bytesFromHex : List Char → Option (List Nat)
  | [] => some []
  | [_] => none
  | c1 :: c2 :: rest => do
      let hi ← hexCharVal c1
      let lo ← hexCharVal c2
      let bs ← bytesFromHex rest
      pure ((16 * hi + lo) :: bs)

/-- Source `_normalize_eco_serial` (api.py:86-92): keep the digit characters,
reject an empty or longer-than-8 result, left-zero-pad to 8 (Python zfill). -/
def _normalize_eco_serial (serial : List Char) : Except ApiError (List Char) :=
  let serial_digits := serial.filter Char.isDigit
  if serial_digits.isEmpty ∨ 8 < serial_digits.length then
    .error (.invalidEcoSerial serial)
  else
    .ok (List.replicate (8 - serial_digits.length) '0' ++ serial_digits)

/-- Source `_eco_trama` (api.py:66-81): validate mode and speed bytes,
normalize the serial, lay out the frame, append CRC-8 checksum and 0D. -/
def _eco_trama (serial : List Char) (mode speed : Int) : Except ApiError (List Char) :=
  if mode < 0 ∨ 255 < mode then .error (.invalidEcoMode mode)
  else if speed < 0 ∨ 255 < speed then .error (.invalidEcoSpeed speed)
  else
    match _normalize_eco_serial serial with
    | .error e => .error e
    | .ok normalized_serial =>
      let serial_hex := normalized_serial.drop (normalized_serial.length - 4)
      let frame_without_checksum :=
        "0A0000".toList ++ serial_hex ++ "000E2F00500000".toList
          ++ hex2 mode.toNat ++ hex2 speed.toNat
      match bytesFromHex frame_without_checksum with
      | none => .error .hexDecodeFailure
      | some bs => .ok (frame_without_checksum ++ hex2 (_crc8_eco bs) ++ "0D".toList)

/-- Source `_is_expected_eco_trama` (api.py:95-103): an empty response trama,
an exact echo, or a response ending with the expected frame all acknowledge. -/
def _is_expected_eco_trama (response_trama expected_trama : List Char) : Bool :=
  if response_trama.isEmpty then true
  else response_trama == expected_trama || expected_trama.isSuffixOf response_trama

/-- Python str.upper on one character, for the ASCII range exercised by the
trama strings (api.py:429 uppercases the response trama). -/
def pyUpperChar (c : Char) : Char :=
  if 'a' ≤ c ∧ c ≤ 'z' then Char.ofNat (c.toNat - 32) else c

/-- Python str.upper over a character list. -/
def pyUpper (s : List Char) : List Char := s.map pyUpperChar

/-- Acknowledgement verification tail of `async_set_eco_state` (api.py:427-451),
taking the response status, serial and trama fields already string-coerced the
way lines 427-429 coerce them; the trama is uppercased as on line 429. -/
def verify_eco_ack (serial : List Char) (expected_trama : List Char)
    (response_status response_serial response_trama_raw : List Char) :
    Except ApiError Unit :=
  let response_trama := pyUpper response_trama_raw
  if response_status ≠ "OK".toList then .error (.unexpectedStatus response_status)
  else
    match _normalize_eco_serial serial with
    | .error e => .error e
    | .ok expected_serial =>
      if ¬ response_serial.isEmpty ∧ response_serial ≠ expected_serial then
        .error (.serialMismatch expected_serial response_serial)
      else if ¬ _is_expected_eco_trama response_trama expected_trama then
        .error (.tramaMismatch expected_trama response_trama)
      else .ok ()

/-- Pure core of `async_set_eco_state` (api.py:403-459): reject an empty
serial, build the trama, and verify the acknowledgement fields of the
response that the transport produced for the write. -/
def async_set_eco_state (serial : List Char) (mode speed : Int)
    (response_status response_serial response_trama : List Char) :
    Except ApiError Unit :=
  if serial.isEmpty then .error .missingSerial
  else
    match _eco_trama serial mode speed with
    | .error e => .error e
    | .ok trama => verify_eco_ack serial trama response_status response_serial response_trama

/-! ## JSON values and Python coercion helpers

JSON payloads are modelled inductively.  The device payloads the claims
exercise carry null, booleans, integers, strings, arrays and objects; JSON
fractional numbers do not occur in any claim. -/

inductive JsonVal where
  | null
  | bool (b : Bool)
  | num (n : Int)
  | str (s : String)
  | arr (items : List JsonVal)
  | obj (fields : List (String × JsonVal))

/-- Python dict.get on an object (first binding wins; Python dicts have unique
keys, so association lists without duplicate keys are the faithful domain). -/
def Json.get (j : JsonVal) (key : String) : Option JsonVal :=
  match j with
  | .obj fields => List.lookup key fields
  | _ => none

/-- Python truthiness of a JSON value. -/
def pyTruthy : JsonVal → Bool
  | .null => false
  | .bool b => b
  | .num n => n != 0
  | .str s => !s.isEmpty
  | .arr items => !items.isEmpty
  | .obj fields => !fields.isEmpty

/-- Python str() of a JSON value.  The string, integer, boolean and None
branches are exact; list/dict reprs are stood in by bracketed sentinels, which
preserves every comparison the client makes because a Python container repr
starts with a bracket character and so never equals the short sentinels the
client compares against (such as the strings 1, 2, OK, NO_AUTH). -/
def pyStr : JsonVal → String
  | .null => "None"
  | .bool b => if b then "True" else "False"
  | .num n => toString n
  | .str s => s
  | .arr _ => "[...]"
  | .obj _ => "<dict-repr>"

/-- Python idiom str(x or "") applied to an optional field value, as used at
api.py:565 and api.py:573. -/
def pyStrOr (v : Option JsonVal) : String :=
  match v with
  | none => ""
  | some j => if pyTruthy j then pyStr j else ""

/-- Python str.strip with no argument: drop leading and trailing whitespace
(the ASCII whitespace characters cover every payload the client sees). -/
def pyStrip (s : String) : String :=
  String.mk (((s.data.dropWhile Char.isWhitespace).reverse.dropWhile Char.isWhitespace).reverse)

/-- Python str.lower on one ASCII character (the mode names compared against
are ASCII, where Python's full case mapping agrees). -/
def pyLowerChar (c : Char) : Char :=
  if 'A' ≤ c ∧ c ≤ 'Z' then Char.ofNat (c.toNat + 32) else c

/-- Python str.lower over a string. -/
def pyLower (s : String) : String := String.mk (s.data.map pyLowerChar)

/-! ## Device state derivations -/

/-- Source `get_hvac_mode` (api.py:562-579): try the top-level hvac_mode field,
fall through to config.mode, default off. -/
def get_hvac_mode (device : JsonVal) : String :=
  let mode := pyStrip (pyStrOr (Json.get device "hvac_mode"))
  if mode = "2" then "auto"
  else if mode = "1" then "heat"
  else
    match Json.get device "config" with
    | some (.obj cfg) =>
        let cfg_mode := pyStrip (pyStrOr (List.lookup "mode" cfg))
        if cfg_mode = "2" then "auto"
        else if cfg_mode = "1" then "heat"
        else "off"
    | _ => "off"

/-- Hvac-mode derivation exactly as the claim words it: the runtime-state
field is used whenever it is present and non-empty, only otherwise the
config.mode field, and the selected value is mapped 2 to auto, 1 to heat,
anything else to off. -/
def hvacModeClaim (device : JsonVal) : String :=
  let raw := pyStrip (pyStrOr (Json.get device "hvac_mode"))
  let source :=
    if raw ≠ "" then raw
    else
      match Json.get device "config" with
      | some (.obj cfg) => pyStrip (pyStrOr (List.lookup "mode" cfg))
      | _ => ""
  if source = "2" then "auto" else if source = "1" then "heat" else "off"

/-- Hvac-mode derivation as amended: the runtime-state field decides only when
it (string-coerced and stripped) equals 1 or 2; for any other value, empty and
absent included, the config.mode field is consulted the same way, and off is
returned when neither field matches. -/
def hvacModeAmended (device : JsonVal) : String :=
  let raw := pyStrip (pyStrOr (Json.get device "hvac_mode"))
  let cfg_mode :=
    match Json.get device "config" with
    | some (.obj cfg) => pyStrip (pyStrOr (List.lookup "mode" cfg))
    | _ => ""
  let chosen := if raw = "1" ∨ raw = "2" then raw else cfg_mode
  if chosen = "2" then "auto" else if chosen = "1" then "heat" else "off"

/-! ## Device data normalization

Source `_normalize_device_data` (api.py:531-548).  The Python json.loads
string parser is abstracted as a `parse` argument: json.loads either returns
a value or raises JSONDecodeError, which the source suppresses. -/

/-- Replacement of every binding of a key by a new value, as Python dict item
assignment does for the (unique) binding of an existing key. -/
def setField (fields : List (String × JsonVal)) (key : String) (v : JsonVal) :
    List (String × JsonVal) :=
  fields.map (fun kv => if kv.1 = key then (kv.1, v) else kv)

/-- One suppressed-json.loads fixup from api.py:541-546: when the field is
present and string-valued, try to parse it and replace it on success. -/
def parseStringField (parse : String → Option JsonVal)
    (fields : List (String × JsonVal)) (key : String) : List (String × JsonVal) :=
  match List.lookup key fields with
  | some (.str s) =>
      match parse s with
      | some v => setField fields key v
      | none => fields
  | _ => fields

/-- Source `_normalize_device_data` (api.py:531-548): non-list data yields an
empty list; mapping entries are kept in order with their model and config
string fields parsed when possible; everything else is dropped. -/
def _normalize_device_data (parse : String → Option JsonVal) (data : JsonVal) :
    List JsonVal :=
  match data with
  | .arr items =>
      items.foldl
        (fun acc raw =>
          match raw with
          | .obj fields =>
              acc ++ [JsonVal.obj (parseStringField parse (parseStringField parse fields "model") "config")]
          | _ => acc)
        []
  | _ => []

/-- Per-binding fixup as the claim words it: a string-valued model or config
field is replaced by its parsed value when it parses and kept otherwise. -/
def claimParseFix (parse : String → Option JsonVal) (key : String) :
    (String × JsonVal) → (String × JsonVal)
  | (k, .str s) => if k = key then (k, (parse s).getD (.str s)) else (k, .str s)
  | kv => kv

/-- Device-data normalization as the claim words it: exactly the sublist of
mapping-shaped entries, each with its model and config bindings fixed up. -/
def normalizeDeviceDataClaim (parse : String → Option JsonVal) (data : JsonVal) :
    List JsonVal :=
  match data with
  | .arr items =>
      items.filterMap
        (fun raw =>
          match raw with
          | .obj fields =>
              some (JsonVal.obj (fields.map
                (fun kv => claimParseFix parse "config" (claimParseFix parse "model" kv))))
          | _ => none)
  | _ => []

/-- Duplicate-free key check for one entry, delimiting the faithful domain of
the association-list encoding of Python dicts. -/
def entryKeysNodup : JsonVal → Bool
  | .obj fields => decide (fields.map Prod.fst).Nodup
  | _ => true

/-- Duplicate-free key check for a whole device-data payload. -/
def dataKeysNodup : JsonVal → Bool
  | .arr items => items.all entryKeysNodup
  | _ => true

/-! ## Fan level normalization

Source `_fan_level` (fan.py:117-134) with the constants of fan.py:31-38. -/

def MIN_NATIVE_FAN_LEVEL : Int := 0

def MAX_NATIVE_FAN_LEVEL : Int := 4

def TRANSLATED_FAN_LEVEL_MIN : Int := 16

def TRANSLATED_FAN_LEVEL_MAX : Int := 19

def TRANSLATED_FAN_LEVEL_OFFSET : Int := 15

/-- Source `_fan_level` (fan.py:117-134) after the `_to_int` coercion of the
speed_state-then-speed_set raw value: pass 0-4 through, translate 16-19 down
by 15, clamp anything else. -/
def _fan_level (speed : Option Int) : Option Int :=
  match speed with
  | none => none
  | some s =>
      if MIN_NATIVE_FAN_LEVEL ≤ s ∧ s ≤ MAX_NATIVE_FAN_LEVEL then some s
      else if TRANSLATED_FAN_LEVEL_MIN ≤ s ∧ s ≤ TRANSLATED_FAN_LEVEL_MAX then
        some (s - TRANSLATED_FAN_LEVEL_OFFSET)
      else some (max MIN_NATIVE_FAN_LEVEL (min MAX_NATIVE_FAN_LEVEL s))

/-- Fan-level normalization as the claim words it. -/
def fanLevelClaim (v : Int) : Int :=
  if 0 ≤ v ∧ v ≤ 4 then v
  else if 16 ≤ v ∧ v ≤ 19 then v - 15
  else min 4 (max 0 v)

/-! ## Thermostat write -/

/-- Source `_mode_to_int` (api.py:41-50): lowercase the mode name and map off,
heat, auto to 0, 1, 2, defaulting to 0. -/
def _mode_to_int (hvac_mode : String) : Int :=
  let normalized := pyLower hvac_mode
  if normalized = "off" then 0
  else if normalized = "heat" then 1
  else if normalized = "auto" then 2
  else 0

/-- Request body posted by `async_set_c800_state` (api.py:382-386).  The
target temperature is carried through untouched, so its numeric type is left
abstract. -/
structure C800WriteBody (τ : Type) where
  serial : String
  w_Tset_Tman : τ
  mode : Int
deriving DecidableEq

/-- Pure core of `async_set_c800_state` (api.py:365-397): gate on the model
string, then build the write body; the response of the post is only logged,
never checked. -/
def async_set_c800_state (τ : Type) (serial : String) (target_temperature : τ)
    (hvac_mode : String) (model : Option String) :
    Except ApiError (C800WriteBody τ) :=
  if model ≠ some "C800WiFi" then
    .error (.generalError "Only C800WiFi model is supported for writes at this moment.")
  else
    .ok ⟨serial, target_temperature, _mode_to_int hvac_mode⟩

/-! ## Session state machine

Source `IntelliclimaApiClient` session fields (api.py:171-175), `_request`
(api.py:461-529), `async_authenticate` (api.py:190-226) and
`async_fetch_house_and_split_device_ids` (api.py:228-274), embedded with
explicit state passing over a transport script: each network call consumes the
next scripted outcome, and a script that runs out stands for a transport that
stops answering (a timeout). -/

structure ClientState where
  auth_token : Option String
  user_id : Option String
  house_id : Option String
  c800_ids : List String
  eco_ids : List String
deriving DecidableEq

/-- Outcome the transport produces for one HTTP call. -/
inductive HttpResult where
  /-- HTTP status 401 or 403 (api.py:497-498). -/
  | authFail
  /-- Timeout, aiohttp client error or DNS failure (api.py:508-517). -/
  | commFail (msg : String)
  /-- HTTP success whose body text parses as JSON. -/
  | ok (payload : JsonVal)

/-- Python falsiness of an optional string session field. -/
def optStrFalsy : Option String → Bool
  | none => true
  | some s => s.isEmpty

/-- Session after the clearing block api.py:521-525. -/
def clearedSession : ClientState :=
  { auth_token := none, user_id := none, house_id := none, c800_ids := [], eco_ids := [] }

/-- Try-block of `_request` (api.py:483-529) without the lazy-auth preamble:
classify one transport outcome.  An HTTP 401/403 raises the authentication
error from inside the try, so the handler at api.py:520-526 clears the whole
session before re-raising; every other failure leaves the session untouched.
A non-dict JSON body follows the unexpected-payload raise path. -/
def _request_raw (st : ClientState) (script : List HttpResult) :
    ClientState × List HttpResult × Except ApiError JsonVal :=
  match script with
  | [] => (st, [], .error (.communication "Timeout error fetching information"))
  | r :: rest =>
    match r with
    | .authFail => (clearedSession, rest, .error (.authentication "Invalid credentials"))
    | .commFail msg => (st, rest, .error (.communication msg))
    | .ok payload =>
        match payload with
        | .obj _ => (st, rest, .ok payload)
        | _ => (st, rest, .error .unexpectedPayload)

/-- String-equality comparison of a payload field against a literal, as the
Python == between dict.get and a string literal behaves. -/
def jsonFieldEqStr (payload : JsonVal) (key s : String) : Bool :=
  match Json.get payload key with
  | some (.str t) => t == s
  | _ => false

/-- Python truthiness of an optional field value. -/
def optTruthy : Option JsonVal → Bool
  | none => false
  | some j => pyTruthy j

/-- Source `async_authenticate` (api.py:190-226): one login call, check the
status marker, require a truthy token and user id, store both stringified. -/
def async_authenticate (st : ClientState) (script : List HttpResult) :
    ClientState × List HttpResult × Except ApiError Unit :=
  match _request_raw st script with
  | (st', rest, .error e) => (st', rest, .error e)
  | (st', rest, .ok payload) =>
    if ¬ jsonFieldEqStr payload "status" "OK" then
      (st', rest, .error (.authentication "Invalid credentials"))
    else
      let token := Json.get payload "token"
      let uid := Json.get payload "id"
      if ¬ optTruthy token ∨ ¬ optTruthy uid then
        (st', rest, .error (.authentication "Authentication response missing token or user id"))
      else
        ({ st' with
            auth_token := some (pyStr (token.getD .null)),
            user_id := some (pyStr (uid.getD .null)) },
          rest, .ok ())

/-- Source `_request` (api.py:461-529): when ensure_auth is set and no token is
cached, authenticate first (api.py:475-476, outside the try-block), then run
the request proper. -/
def _request (st : ClientState) (script : List HttpResult) (ensure_auth : Bool) :
    ClientState × List HttpResult × Except ApiError JsonVal :=
  if ensure_auth ∧ optStrFalsy st.auth_token then
    match async_authenticate st script with
    | (st', rest, .error e) => (st', rest, .error e)
    | (st', rest, .ok ()) => _request_raw st' rest
  else _request_raw st script

/-- Filter of api.py:254 and api.py:261: drop None and empty-string entries. -/
def keepId : JsonVal → Bool
  | .null => false
  | .str s => !s.isEmpty
  | _ => true

/-- Id-collection extraction of api.py:252-264: a list payload is filtered and
stringified, anything else collapses to the empty list. -/
def extractIds (v : Option JsonVal) : List String :=
  match v with
  | some (.arr items) => (items.filter keepId).map pyStr
  | _ => []

/-- Body of `async_fetch_house_and_split_device_ids` after its lazy-auth
preamble (api.py:233-274): query the house listing, treat a NO_AUTH status
marker as an expired session, otherwise cache the first house key and the two
filtered id collections (or clear them when no houses are present). -/
def fetchHouseCore (st : ClientState) (script : List HttpResult) :
    ClientState × List HttpResult × Except ApiError Unit :=
  match _request st script true with
  | (st', rest, .error e) => (st', rest, .error e)
  | (st', rest, .ok payload) =>
    if jsonFieldEqStr payload "status" "NO_AUTH" then
      (st', rest, .error (.authentication "Authentication expired"))
    else
      match (Json.get payload "houses").getD (.obj []) with
      | .obj [] =>
          ({ st' with house_id := none, c800_ids := [], eco_ids := [] }, rest, .ok ())
      | .obj ((house_id, _) :: _) =>
          ({ st' with
              house_id := some house_id,
              c800_ids := extractIds (Json.get payload "cronoIDs"),
              eco_ids := extractIds (Json.get payload "ecoIDs") },
            rest, .ok ())
      | _ =>
          ({ st' with house_id := none, c800_ids := [], eco_ids := [] }, rest, .ok ())

/-- Source `async_fetch_house_and_split_device_ids` (api.py:228-274). -/
def async_fetch_house_and_split_device_ids (st : ClientState) (script : List HttpResult) :
    ClientState × List HttpResult × Except ApiError Unit :=
  if optStrFalsy st.user_id then
    match async_authenticate st script with
    | (st', rest, .error e) => (st', rest, .error e)
    | (st', rest, .ok ()) => fetchHouseCore st' rest
  else fetchHouseCore st script

/-! ## Endpoint negotiator -/

/-- Classified outcome of attempting one endpoint path variant. -/
inductive AttemptOutcome (α : Type) where
  | authFailure (e : ApiError)
  | otherFailure (e : ApiError)
  | success (v : α)

/-- Modelled from the spec: the Endpoint Negotiator of spec section 4.5 is not
present under src/ (the checked-in client calls fixed paths directly), so its
attempt loop is modelled from the spec's words: try each configured path
variant in order, propagate an authentication-class failure immediately,
remember any other failure and move on, return the first success, and after
exhausting the variants raise the last remembered failure. -/
def negotiate {α : Type} : List (AttemptOutcome α) → Option ApiError → Except ApiError α
  | [], none => .error (.communication "no endpoint variants configured")
  | [], some e => .error e
  | .authFailure e :: _, _ => .error e
  | .otherFailure e :: rest, _ => negotiate rest (some e)
  | .success v :: _, _ => .ok v

/-- Non-authentication-failure check on an attempt outcome. -/
def isOtherFailure {α : Type} : AttemptOutcome α → Bool
  | .otherFailure _ => true
  | _ => false

/-! ## Claim theorems -/

/-- C6: `_crc8_eco` computes exactly the reference CRC-8 of the claim: init
0x00, per input byte XOR it in and run eight shift rounds (shift left masked
to 8 bits, XORed with 0x31 when the high bit was set), then XOR the result
with 0xC5.  The embedding is a total Lean function, so the computation is pure
and deterministic with no failure modes. -/
theorem crc8_matches_reference (payload : List Nat) : _crc8_eco payload = crc8Spec payload := by
  unfold _crc8_eco crc8Spec
  rw [crc8SpecFold_eq]

/-- C8: the fan-level normalization of `_fan_level` agrees pointwise with the
claim's rule (pass 0 to 4 through unchanged, translate 16 to 19 down by 15,
clamp anything else into 0 to 4), and in particular maps raw 2 to level 2,
raw 17 to level 2 and raw 9 to level 4. -/
theorem fan_level_normalization :
    (∀ v : Int, _fan_level (some v) = some (fanLevelClaim v))
      ∧ _fan_level none = none
      ∧ _fan_level (some 2) = some 2
      ∧ _fan_level (some 17) = some 2
      ∧ _fan_level (some 9) = some 4 := by
  refine ⟨fun v => ?_, rfl, by decide, by decide, by decide⟩
  unfold _fan_level fanLevelClaim MIN_NATIVE_FAN_LEVEL MAX_NATIVE_FAN_LEVEL
    TRANSLATED_FAN_LEVEL_MIN TRANSLATED_FAN_LEVEL_MAX TRANSLATED_FAN_LEVEL_OFFSET
  have hmm : max (0 : Int) (min 4 v) = min 4 (max 0 v) := by
    rcases le_total v 0 with h | h <;> rcases le_total v 4 with h' | h' <;>
      simp [max_def, min_def] <;> omega
  by_cases hA : 0 ≤ v ∧ v ≤ 4
  · simp [hA]
  · by_cases hB : 16 ≤ v ∧ v ≤ 19
    · simp [hA, hB]
    · simp [hA, hB, hmm]

/-- C10: `_mode_to_int` maps any mode string whose lowercase form is not off,
heat or auto (and also off itself) to 0, so a C800WiFi write with an
unrecognized mode string never fails: it silently posts vendor mode 0 together
with the requested target temperature. -/
theorem unrecognized_mode_posts_off (τ : Type) (serial : String) (t : τ) (m : String)
    (h : pyLower m = "off" ∨ pyLower m ∉ (["off", "heat", "auto"] : List String)) :
    _mode_to_int m = 0
      ∧ async_set_c800_state τ serial t m (some "C800WiFi")
          = .ok ⟨serial, t, 0⟩ := by
  have hm : _mode_to_int m = 0 := by
    unfold _mode_to_int
    rcases h with h | h
    · simp [h]
    · simp only [List.mem_cons, List.not_mem_nil, or_false, not_or] at h
      obtain ⟨h1, h2, h3⟩ := h
      simp [h1, h2, h3]
  refine ⟨hm, ?_⟩
  unfold async_set_c800_state
  simp [hm]

/-- Witness for the unrecognized-mode theorem at the concrete mode string
COOL: the claim's hypothesis holds there and the write posts mode 0. -/
theorem unrecognized_mode_posts_off_witness :
    (pyLower "COOL" = "off" ∨ pyLower "COOL" ∉ (["off", "heat", "auto"] : List String))
      ∧ (_mode_to_int "COOL" = 0
          ∧ async_set_c800_state Int "ser" (215 : Int) "COOL" (some "C800WiFi")
              = .ok ⟨"ser", 215, 0⟩) :=
  ⟨Or.inr (by decide), unrecognized_mode_posts_off Int "ser" 215 "COOL" (Or.inr (by decide))⟩

/-- Device on which the C7 claim and the code disagree. -/
def hvacCexDevice : JsonVal :=
  .obj [("hvac_mode", .str "3"), ("config", .obj [("mode", .str "1")])]

/-- Counterexample to C7: on a device whose runtime mode field is the present,
non-empty string 3 while config.mode is 1, `get_hvac_mode` falls through to
the nested config field and returns heat, whereas the claim's rule commits to
the non-empty runtime field and therefore returns off. -/
theorem hvac_mode_claim_counterexample :
    get_hvac_mode hvacCexDevice = "heat" ∧ hvacModeClaim hvacCexDevice = "off" := by
  exact ⟨by decide, by decide⟩

/-- C7 amended: the runtime-state field decides the hvac mode only when it
equals 1 or 2 after string coercion and stripping; for any other runtime value
(empty and absent included) the config.mode field is consulted the same way,
and off is returned when neither field matches.  The claim's three examples
hold unchanged, and the derivation is a total function. -/
theorem hvac_mode_mapping :
    (∀ device : JsonVal, get_hvac_mode device = hvacModeAmended device)
      ∧ get_hvac_mode (.obj [("hvac_mode", .str "2")]) = "auto"
      ∧ get_hvac_mode (.obj [("hvac_mode", .str ""), ("config", .obj [("mode", .str "1")])])
          = "heat"
      ∧ get_hvac_mode (.obj []) = "off" := by
  refine ⟨fun device => ?_, by decide, by decide, by decide⟩
  unfold get_hvac_mode hvacModeAmended
  by_cases h2 : pyStrip (pyStrOr (Json.get device "hvac_mode")) = "2"
  · simp [h2]
  · by_cases h1 : pyStrip (pyStrOr (Json.get device "hvac_mode")) = "1"
    · simp [h1]
    · have hch : ¬ (pyStrip (pyStrOr (Json.get device "hvac_mode")) = "1"
          ∨ pyStrip (pyStrOr (Json.get device "hvac_mode")) = "2") := by tauto
      cases hcfg : Json.get device "config" with
      | none =>
          simp [h1, h2, hch]
          decide
      | some cfg => cases cfg <;> simp [h1, h2, hch] <;> try decide

theorem fst_claimParseFix (parse : String → Option JsonVal) (key : String)
    (kv : String × JsonVal) : (claimParseFix parse key kv).1 = kv.1 := by
  obtain ⟨k, v⟩ := kv
  cases v <;> first | rfl | (simp only [claimParseFix]; split <;> rfl)

theorem claimParseFix_of_ne (parse : String → Option JsonVal) (key : String)
    (kv : String × JsonVal) (h : kv.1 ≠ key) : claimParseFix parse key kv = kv := by
  obtain ⟨k, v⟩ := kv
  cases v <;> first | rfl | (simp only [claimParseFix]; rw [if_neg h])

theorem map_claimParseFix_of_not_mem (parse : String → Option JsonVal) (key : String)
    (l : List (String × JsonVal)) (h : key ∉ l.map Prod.fst) :
    l.map (claimParseFix parse key) = l := by
  induction l with
  | nil => rfl
  | cons kv t ih =>
      simp only [List.map_cons, List.mem_cons, not_or] at h
      obtain ⟨h1, h2⟩ := h
      rw [List.map_cons, claimParseFix_of_ne parse key kv (fun hk => h1 hk.symm), ih h2]

theorem setField_cons (t : List (String × JsonVal)) (kv : String × JsonVal)
    (key : String) (u : JsonVal) :
    setField (kv :: t) key u = (if kv.1 = key then (kv.1, u) else kv) :: setField t key u := rfl

theorem setField_of_not_mem (t : List (String × JsonVal)) (key : String) (u : JsonVal)
    (h : key ∉ t.map Prod.fst) : setField t key u = t := by
  induction t with
  | nil => rfl
  | cons kv t ih =>
      simp only [List.map_cons, List.mem_cons, not_or] at h
      obtain ⟨h1, h2⟩ := h
      rw [setField_cons, if_neg (fun hk => h1 hk.symm), ih h2]

theorem map_fst_setField (t : List (String × JsonVal)) (key : String) (u : JsonVal) :
    (setField t key u).map Prod.fst = t.map Prod.fst := by
  induction t with
  | nil => rfl
  | cons kv t ih =>
      rw [setField_cons, List.map_cons, List.map_cons, ih]
      congr 1
      split <;> rfl

theorem map_fst_parseStringField (parse : String → Option JsonVal)
    (l : List (String × JsonVal)) (key : String) :
    (parseStringField parse l key).map Prod.fst = l.map Prod.fst := by
  cases hlk : List.lookup key l with
  | none => simp [parseStringField, hlk]
  | some w =>
      cases w <;> simp [parseStringField, hlk]
      case str s => cases hp : parse s <;> simp [hp, map_fst_setField]

theorem parseStringField_cons_of_ne (parse : String → Option JsonVal)
    (k : String) (v : JsonVal) (t : List (String × JsonVal)) (key : String)
    (h : k ≠ key) :
    parseStringField parse ((k, v) :: t) key = (k, v) :: parseStringField parse t key := by
  have hbeq : (key == k) = false := by
    simp only [beq_eq_false_iff_ne, ne_eq]
    exact fun hk => h hk.symm
  cases hlk : List.lookup key t with
  | none => simp [parseStringField, List.lookup, hbeq, hlk]
  | some w =>
      cases w <;> simp [parseStringField, List.lookup, hbeq, hlk]
      case str s =>
        cases hp : parse s with
        | none => simp [hp]
        | some u => simp [hp, setField_cons, if_neg h]

/-- String-value check on a JSON value (Python isinstance against str). -/
def isStrVal : JsonVal → Bool
  | .str _ => true
  | _ => false

theorem parseStringField_of_lookup_str (parse : String → Option JsonVal)
    (l : List (String × JsonVal)) (key s : String)
    (hlk : List.lookup key l = some (.str s)) :
    parseStringField parse l key
      = (match parse s with | some u => setField l key u | none => l) := by
  unfold parseStringField
  rw [hlk]

theorem parseStringField_of_lookup_not_str (parse : String → Option JsonVal)
    (l : List (String × JsonVal)) (key : String) (w : JsonVal)
    (hlk : List.lookup key l = some w) (hw : isStrVal w = false) :
    parseStringField parse l key = l := by
  unfold parseStringField
  rw [hlk]
  cases w <;> first | rfl | simp [isStrVal] at hw

theorem parseStringField_eq_map (parse : String → Option JsonVal)
    (l : List (String × JsonVal)) (key : String) (h : (l.map Prod.fst).Nodup) :
    parseStringField parse l key = l.map (claimParseFix parse key) := by
  induction l with
  | nil => rfl
  | cons kv t ih =>
      obtain ⟨k, v⟩ := kv
      simp only [List.map_cons, List.nodup_cons, List.mem_map] at h
      obtain ⟨hk, ht⟩ := h
      by_cases hkey : k = key
      · subst hkey
        have hnot : k ∉ t.map Prod.fst := by
          intro hmem
          exact hk (by simpa using hmem)
        have hmap : t.map (claimParseFix parse k) = t := map_claimParseFix_of_not_mem parse k t hnot
        have hlk : List.lookup k ((k, v) :: t) = some v := by simp [List.lookup]
        cases v with
        | str s =>
            rw [parseStringField_of_lookup_str parse _ k s hlk]
            cases hp : parse s with
            | none => simp [hp, claimParseFix, hmap]
            | some u =>
                simp [hp, setField_cons, setField_of_not_mem t k u hnot, claimParseFix, hmap]
        | null =>
            rw [parseStringField_of_lookup_not_str parse _ k _ hlk rfl]
            simp [claimParseFix, hmap]
        | bool b =>
            rw [parseStringField_of_lookup_not_str parse _ k _ hlk rfl]
            simp [claimParseFix, hmap]
        | num n =>
            rw [parseStringField_of_lookup_not_str parse _ k _ hlk rfl]
            simp [claimParseFix, hmap]
        | arr items =>
            rw [parseStringField_of_lookup_not_str parse _ k _ hlk rfl]
            simp [claimParseFix, hmap]
        | obj fields =>
            rw [parseStringField_of_lookup_not_str parse _ k _ hlk rfl]
            simp [claimParseFix, hmap]
      · rw [parseStringField_cons_of_ne parse k v t key hkey, ih ht, List.map_cons,
          claimParseFix_of_ne parse key (k, v) hkey]

/-- Per-entry normalization of one mapping-shaped device record, as the source
loop body api.py:540-546 performs it. -/
def normEntry (parse : String → Option JsonVal) (fields : List (String × JsonVal)) :
    List (String × JsonVal) :=
  parseStringField parse (parseStringField parse fields "model") "config"

theorem normEntry_eq_map (parse : String → Option JsonVal)
    (fields : List (String × JsonVal)) (h : (fields.map Prod.fst).Nodup) :
    normEntry parse fields
      = fields.map (fun kv => claimParseFix parse "config" (claimParseFix parse "model" kv)) := by
  unfold normEntry
  have hkeys : ((parseStringField parse fields "model").map Prod.fst).Nodup := by
    rw [map_fst_parseStringField]
    exact h
  rw [parseStringField_eq_map parse _ "config" hkeys,
    parseStringField_eq_map parse fields "model" h, List.map_map]
  rfl

theorem foldl_norm_filterMap (parse : String → Option JsonVal) (items : List JsonVal)
    (h : items.all entryKeysNodup = true) (acc : List JsonVal) :
    items.foldl
        (fun acc raw =>
          match raw with
          | .obj fields =>
              acc ++ [JsonVal.obj (parseStringField parse (parseStringField parse fields "model") "config")]
          | _ => acc)
        acc
      = acc ++ items.filterMap
          (fun raw =>
            match raw with
            | .obj fields =>
                some (JsonVal.obj (fields.map
                  (fun kv => claimParseFix parse "config" (claimParseFix parse "model" kv))))
            | _ => none) := by
  induction items generalizing acc with
  | nil => simp
  | cons raw t ih =>
      simp only [List.all_cons, Bool.and_eq_true] at h
      obtain ⟨h1, ht⟩ := h
      rw [List.foldl_cons, List.filterMap_cons]
      cases raw with
      | obj fields =>
          have hnodup : (fields.map Prod.fst).Nodup := by
            simpa [entryKeysNodup] using h1
          have e1 := normEntry_eq_map parse fields hnodup
          unfold normEntry at e1
          rw [ih ht]
          simp [e1]
      | null => rw [ih ht]
      | bool b => rw [ih ht]
      | num n => rw [ih ht]
      | str s => rw [ih ht]
      | arr xs => rw [ih ht]

/-- C9: on well-formed payloads (association lists standing for Python dicts,
hence duplicate-free keys), `_normalize_device_data` returns exactly the
sublist of mapping-shaped entries, non-mapping entries dropped and non-list
input yielding the empty list, with each kept entry's string-valued model and
config fields replaced by their parsed value when parsing succeeds and left
untouched when it fails; the normalizer is a total function and never
raises. -/
theorem normalize_device_data_matches_claim (parse : String → Option JsonVal)
    (data : JsonVal) (h : dataKeysNodup data = true) :
    _normalize_device_data parse data = normalizeDeviceDataClaim parse data := by
  cases data with
  | arr items =>
      have h' : items.all entryKeysNodup = true := by simpa [dataKeysNodup] using h
      simp only [_normalize_device_data, normalizeDeviceDataClaim]
      rw [foldl_norm_filterMap parse items h' []]
      simp
  | null => rfl
  | bool b => rfl
  | num n => rfl
  | str s => rfl
  | obj fields => rfl

/-- Parser used by the C9 witness: recognizes exactly the string 7. -/
def c9Parse : String → Option JsonVal := fun s => if s = "7" then some (.num 7) else none

/-- Payload used by the C9 witness: one mapping entry with a parsable model
string and an unparsable config string, plus two non-mapping entries. -/
def c9Data : JsonVal :=
  .arr [ .obj [("id", .str "1"), ("model", .str "7"), ("config", .str "oops")],
         .str "junk",
         .num 3 ]

/-- Witness for the C9 theorem at a concrete payload: the duplicate-free-key
hypothesis holds, the theorem applies, and the normalizer keeps only the
mapping entry with its model field parsed and its config string kept. -/
theorem normalize_device_data_matches_claim_witness :
    dataKeysNodup c9Data = true
      ∧ _normalize_device_data c9Parse c9Data = normalizeDeviceDataClaim c9Parse c9Data
      ∧ _normalize_device_data c9Parse c9Data
          = [.obj [("id", .str "1"), ("model", .num 7), ("config", .str "oops")]] :=
  ⟨by decide, normalize_device_data_matches_claim c9Parse c9Data (by decide), by rfl⟩

theorem is_expected_iff (resp expected : List Char) :
    _is_expected_eco_trama resp expected = true
      ↔ (resp = [] ∨ resp = expected ∨ expected.isSuffixOf resp = true) := by
  unfold _is_expected_eco_trama
  by_cases h : resp.isEmpty
  · simp [h, List.isEmpty_iff.mp h]
  · have hne : resp ≠ [] := by simpa [List.isEmpty_iff] using h
    simp [h, hne]

/-- C3: acknowledgement verification for an ECO write with expected frame F
succeeds exactly when the response status is the OK marker, the response
serial is absent or equals the normalized expected serial, and the
(uppercased) response trama is empty, exactly F, or ends with F; each failure
mode reports the corresponding mismatch error.  In particular the responses
empty, F, and SERVERECO plus F all verify, while any same-length trama other
than F (such as F with one trailing character altered) fails with the trama
mismatch error. -/
theorem eco_ack_verification (serial es F st sr tr : List Char)
    (hnorm : _normalize_eco_serial serial = .ok es) :
    (verify_eco_ack serial F st sr tr = .ok ()
        ↔ st = "OK".toList ∧ (sr = [] ∨ sr = es)
            ∧ (pyUpper tr = [] ∨ pyUpper tr = F ∨ F.isSuffixOf (pyUpper tr) = true))
      ∧ (st ≠ "OK".toList →
            verify_eco_ack serial F st sr tr = .error (.unexpectedStatus st))
      ∧ (st = "OK".toList → sr ≠ [] → sr ≠ es →
            verify_eco_ack serial F st sr tr = .error (.serialMismatch es sr))
      ∧ (st = "OK".toList → (sr = [] ∨ sr = es) →
            ¬ (pyUpper tr = [] ∨ pyUpper tr = F ∨ F.isSuffixOf (pyUpper tr) = true) →
            verify_eco_ack serial F st sr tr = .error (.tramaMismatch F (pyUpper tr)))
      ∧ (pyUpper F = F →
            verify_eco_ack serial F "OK".toList [] [] = .ok ()
              ∧ verify_eco_ack serial F "OK".toList [] F = .ok ()
              ∧ verify_eco_ack serial F "OK".toList [] ("SERVERECO".toList ++ F) = .ok ()
              ∧ ∀ G : List Char, G.length = F.length → G ≠ F → pyUpper G = G →
                  verify_eco_ack serial F "OK".toList [] G
                    = .error (.tramaMismatch F G)) := by
  have hver : ∀ st' sr' tr' : List Char, verify_eco_ack serial F st' sr' tr' =
      (if st' ≠ "OK".toList then .error (.unexpectedStatus st')
       else if ¬ sr'.isEmpty ∧ sr' ≠ es then .error (.serialMismatch es sr')
       else if ¬ _is_expected_eco_trama (pyUpper tr') F then
         .error (.tramaMismatch F (pyUpper tr'))
       else .ok ()) := by
    intro st' sr' tr'
    unfold verify_eco_ack
    rw [hnorm]
  have hser_iff : ∀ sr' : List Char,
      (¬ sr'.isEmpty ∧ sr' ≠ es) ↔ ¬ (sr' = [] ∨ sr' = es) := by
    intro sr'
    simp [List.isEmpty_iff, not_or]
  refine ⟨?_, ?_, ?_, ?_, ?_⟩
  · rw [hver]
    by_cases h1 : st = "OK".toList
    · by_cases h2 : sr = [] ∨ sr = es
      · have h2' : ¬ (¬ sr.isEmpty ∧ sr ≠ es) := (not_congr (hser_iff sr)).mpr (not_not.mpr h2)
        by_cases h3 : pyUpper tr = [] ∨ pyUpper tr = F ∨ F.isSuffixOf (pyUpper tr) = true
        · have hb3 : _is_expected_eco_trama (pyUpper tr) F = true := (is_expected_iff _ _).mpr h3
          rw [if_neg (not_not.mpr h1), if_neg h2', if_neg (not_not.mpr hb3)]
          exact iff_of_true rfl ⟨h1, h2, h3⟩
        · have hb3 : ¬ _is_expected_eco_trama (pyUpper tr) F = true :=
            fun hb => h3 ((is_expected_iff _ _).mp hb)
          rw [if_neg (not_not.mpr h1), if_neg h2', if_pos hb3]
          exact iff_of_false (by simp) (fun hc => h3 hc.2.2)
      · have h2' : ¬ sr.isEmpty ∧ sr ≠ es := (hser_iff sr).mpr h2
        rw [if_neg (not_not.mpr h1), if_pos h2']
        exact iff_of_false (by simp) (fun hc => h2 hc.2.1)
    · rw [if_pos h1]
      exact iff_of_false (by simp) (fun hc => h1 hc.1)
  · intro h1
    rw [hver, if_pos h1]
  · intro h1 h2 h3
    rw [hver, if_neg (not_not.mpr h1),
      if_pos ⟨by simpa [List.isEmpty_iff] using h2, h3⟩]
  · intro h1 h2 h3
    have h2' : ¬ (¬ sr.isEmpty ∧ sr ≠ es) := (not_congr (hser_iff sr)).mpr (not_not.mpr h2)
    have hb3 : ¬ _is_expected_eco_trama (pyUpper tr) F = true :=
      fun hb => h3 ((is_expected_iff _ _).mp hb)
    rw [hver, if_neg (not_not.mpr h1), if_neg h2', if_pos hb3]
  · intro hF
    have hempty : _is_expected_eco_trama (pyUpper ([] : List Char)) F = true := rfl
    have hexact : _is_expected_eco_trama (pyUpper F) F = true := by
      rw [hF]
      apply (is_expected_iff _ _).mpr
      exact Or.inr (Or.inl rfl)
    have hserv : _is_expected_eco_trama (pyUpper ("SERVERECO".toList ++ F)) F = true := by
      have hup : pyUpper ("SERVERECO".toList ++ F) = "SERVERECO".toList ++ F := by
        unfold pyUpper
        rw [List.map_append]
        unfold pyUpper at hF
        rw [hF]
        rfl
      rw [hup]
      apply (is_expected_iff _ _).mpr
      refine Or.inr (Or.inr ?_)
      rw [List.isSuffixOf_iff_suffix]
      exact List.suffix_append _ _
    have hok : ∀ tr₀ : List Char, _is_expected_eco_trama (pyUpper tr₀) F = true →
        verify_eco_ack serial F "OK".toList [] tr₀ = .ok () := by
      intro tr₀ htr₀
      rw [hver, if_neg (not_not.mpr rfl), if_neg (fun hc => hc.1 rfl),
        if_neg (not_not.mpr htr₀)]
    refine ⟨hok [] hempty, hok F hexact, hok _ hserv, ?_⟩
    intro G hlen hne hup
    have hb3 : ¬ _is_expected_eco_trama (pyUpper G) F = true := by
      rw [hup]
      intro hb
      rcases (is_expected_iff _ _).mp hb with h | h | h
      · subst h
        exact hne (by cases F with
          | nil => rfl
          | cons a t => simp at hlen)
      · exact hne h
      · rw [List.isSuffixOf_iff_suffix] at h
        exact hne (List.IsSuffix.eq_of_length h hlen.symm).symm
    rw [hver, if_neg (not_not.mpr rfl), if_neg (fun hc => hc.1 rfl), if_pos hb3, hup]

/-- Witness for the C3 theorem at a concrete serial and frame: the serial
normalizes, and a response echoing the frame behind a SERVERECO token
verifies. -/
theorem eco_ack_verification_witness :
    _normalize_eco_serial ("123".toList) = .ok ("00000123".toList)
      ∧ verify_eco_ack ("123".toList) ("0A0B".toList) ("OK".toList) []
          ("SERVERECO0A0B".toList) = .ok () :=
  ⟨by rfl,
    ((eco_ack_verification "123".toList "00000123".toList "0A0B".toList
        "OK".toList [] ("SERVERECO0A0B".toList) (by rfl)).1).mpr (by decide)⟩

theorem normalize_eco_serial_ok (serial : List Char)
    (h1 : 1 ≤ (serial.filter Char.isDigit).length)
    (h8 : (serial.filter Char.isDigit).length ≤ 8) :
    _normalize_eco_serial serial
      = .ok (List.replicate (8 - (serial.filter Char.isDigit).length) '0'
          ++ serial.filter Char.isDigit) := by
  simp only [_normalize_eco_serial]
  rw [if_neg]
  rintro (hc | hc)
  · rw [List.isEmpty_iff] at hc
    simp [hc] at h1
  · omega

/-- C5: `_eco_trama` rejects every mode or speed outside 0..255 with an
invalid-frame-field error (mode checked first), rejects — with mode and speed
in range — every serial whose digit characters are empty or number more than
8 with the invalid-serial error, and otherwise the serial's digit characters
are left-zero-padded to exactly 8 digits before encoding. -/
theorem eco_frame_validation (serial : List Char) (mode speed : Int) :
    ((mode < 0 ∨ 255 < mode ∨ speed < 0 ∨ 255 < speed) →
        ∃ e, _eco_trama serial mode speed = .error e ∧ isFrameFieldError e = true)
      ∧ (0 ≤ mode → mode ≤ 255 → 0 ≤ speed → speed ≤ 255 →
          (serial.filter Char.isDigit = [] ∨ 8 < (serial.filter Char.isDigit).length) →
          _eco_trama serial mode speed = .error (.invalidEcoSerial serial))
      ∧ (1 ≤ (serial.filter Char.isDigit).length →
          (serial.filter Char.isDigit).length ≤ 8 →
          _normalize_eco_serial serial
              = .ok (List.replicate (8 - (serial.filter Char.isDigit).length) '0'
                  ++ serial.filter Char.isDigit)
            ∧ (List.replicate (8 - (serial.filter Char.isDigit).length) '0'
                  ++ serial.filter Char.isDigit).length = 8) := by
  refine ⟨?_, ?_, ?_⟩
  · intro h
    unfold _eco_trama
    by_cases hm : mode < 0 ∨ 255 < mode
    · rw [if_pos hm]
      exact ⟨.invalidEcoMode mode, rfl, rfl⟩
    · have hs : speed < 0 ∨ 255 < speed := by tauto
      rw [if_neg hm, if_pos hs]
      exact ⟨.invalidEcoSpeed speed, rfl, rfl⟩
  · intro hm0 hm1 hs0 hs1 hser
    have hn : _normalize_eco_serial serial = .error (.invalidEcoSerial serial) := by
      simp only [_normalize_eco_serial]
      rw [if_pos]
      rcases hser with h | h
      · exact Or.inl (by simp [h])
      · exact Or.inr h
    unfold _eco_trama
    rw [if_neg (by omega), if_neg (by omega), hn]
  · intro h1 h8
    refine ⟨normalize_eco_serial_ok serial h1 h8, ?_⟩
    simp only [List.length_append, List.length_replicate]
    omega

/-- Witness for the C5 theorem at the claim's concrete inputs: mode 256 and
speed -1 produce frame-field errors, and the 9-digit serial produces the
invalid-serial error. -/
theorem eco_frame_validation_witness :
    (∃ e, _eco_trama ("123".toList) 256 0 = .error e ∧ isFrameFieldError e = true)
      ∧ (∃ e, _eco_trama ("123".toList) 0 (-1) = .error e ∧ isFrameFieldError e = true)
      ∧ _eco_trama ("123456789".toList) 1 2 = .error (.invalidEcoSerial "123456789".toList) :=
  ⟨(eco_frame_validation "123".toList 256 0).1 (by omega),
    (eco_frame_validation "123".toList 0 (-1)).1 (by omega),
    (eco_frame_validation "123456789".toList 1 2).2.1 (by omega) (by omega) (by omega)
      (by omega) (Or.inr (by decide))⟩

/-! ## Hex-character support for the frame-layout theorem -/

/-- Hex-character check: the characters bytes.fromhex accepts. -/
def isHexChar (c : Char) : Bool := (hexCharVal c).isSome

/-- Uppercase-hex-character check: a decimal digit or an uppercase A-F. -/
def isUpperHexChar (c : Char) : Bool := c.isDigit || (decide ('A' ≤ c) && decide (c ≤ 'F'))

theorem isHexChar_of_isDigit (c : Char) (h : c.isDigit = true) : isHexChar c = true := by
  have h' : '0' ≤ c ∧ c ≤ '9' := by
    have h2 : (decide ('0' ≤ c) && decide (c ≤ '9')) = true := h
    simpa using h2
  unfold isHexChar hexCharVal
  rw [if_pos h']
  rfl

theorem isUpperHexChar_of_isDigit (c : Char) (h : c.isDigit = true) :
    isUpperHexChar c = true := by
  simp [isUpperHexChar, h]

theorem isHexChar_hexDigitU (n : Nat) (h : n < 16) : isHexChar (hexDigitU n) = true := by
  interval_cases n <;> decide

theorem isUpperHexChar_hexDigitU (n : Nat) (h : n < 16) :
    isUpperHexChar (hexDigitU n) = true := by
  interval_cases n <;> decide

theorem bytesFromHex_isSome : ∀ (xs : List Char), (∀ c ∈ xs, isHexChar c = true) →
    xs.length % 2 = 0 → (bytesFromHex xs).isSome = true
  | [], _, _ => rfl
  | [c], _, hlen => by simp at hlen
  | c1 :: c2 :: rest, hhex, hlen => by
      have h1 : isHexChar c1 = true := hhex c1 (by simp)
      have h2 : isHexChar c2 = true := hhex c2 (by simp)
      have hrest : rest.length % 2 = 0 := by
        simp only [List.length_cons] at hlen
        omega
      have hr : (bytesFromHex rest).isSome = true :=
        bytesFromHex_isSome rest (fun c hc => hhex c (by simp [hc])) hrest
      unfold isHexChar at h1 h2
      obtain ⟨a, ha⟩ := Option.isSome_iff_exists.mp h1
      obtain ⟨b, hb⟩ := Option.isSome_iff_exists.mp h2
      obtain ⟨bs, hbs⟩ := Option.isSome_iff_exists.mp hr
      unfold bytesFromHex
      simp [ha, hb, hbs]

theorem forall_mem_append_of (P : Char → Bool) (l1 l2 : List Char)
    (h1 : ∀ c ∈ l1, P c = true) (h2 : ∀ c ∈ l2, P c = true) :
    ∀ c ∈ l1 ++ l2, P c = true := by
  intro c hc
  rcases List.mem_append.mp hc with h | h
  · exact h1 c h
  · exact h2 c h

theorem forall_mem_hex2 (P : Char → Bool) (n : Nat)
    (hx : P (hexDigitU (n / 16)) = true) (hy : P (hexDigitU (n % 16)) = true) :
    ∀ c ∈ hex2 n, P c = true := by
  intro c hc
  simp only [hex2, List.mem_cons, List.not_mem_nil, or_false] at hc
  rcases hc with rfl | rfl
  · exact hx
  · exact hy

theorem eco_trama_ok_aux (serial : List Char) (mode speed : Int) (padded : List Char)
    (hm0 : 0 ≤ mode) (hm1 : mode ≤ 255) (hs0 : 0 ≤ speed) (hs1 : speed ≤ 255)
    (hnormok : _normalize_eco_serial serial = .ok padded)
    (hplen : padded.length = 8)
    (hpaddig : ∀ c ∈ padded, c.isDigit = true) :
    ∃ bs : List Nat,
      bytesFromHex ("0A0000".toList ++ padded.drop 4 ++ ("000E2F0050".toList ++ "0000".toList)
          ++ hex2 mode.toNat ++ hex2 speed.toNat) = some bs
      ∧ _eco_trama serial mode speed
          = .ok ("0A0000".toList ++ padded.drop 4 ++ ("000E2F0050".toList ++ "0000".toList)
              ++ hex2 mode.toNat ++ hex2 speed.toNat ++ hex2 (_crc8_eco bs) ++ "0D".toList)
      ∧ ("0A0000".toList ++ padded.drop 4 ++ ("000E2F0050".toList ++ "0000".toList)
          ++ hex2 mode.toNat ++ hex2 speed.toNat ++ hex2 (_crc8_eco bs)
          ++ "0D".toList).length = 32
      ∧ (∀ c ∈ "0A0000".toList ++ padded.drop 4 ++ ("000E2F0050".toList ++ "0000".toList)
          ++ hex2 mode.toNat ++ hex2 speed.toNat ++ hex2 (_crc8_eco bs) ++ "0D".toList,
          isUpperHexChar c = true)
      ∧ (("0A0000".toList ++ padded.drop 4 ++ ("000E2F0050".toList ++ "0000".toList)
          ++ hex2 mode.toNat ++ hex2 speed.toNat ++ hex2 (_crc8_eco bs)
          ++ "0D".toList).drop 6).take 4 = padded.drop 4
      ∧ ∃ stem, "0A0000".toList ++ padded.drop 4 ++ ("000E2F0050".toList ++ "0000".toList)
          ++ hex2 mode.toNat ++ hex2 speed.toNat ++ hex2 (_crc8_eco bs) ++ "0D".toList
          = stem ++ "0D".toList := by
  have hl4 : (padded.drop 4).length = 4 := by
    rw [List.length_drop, hplen]
  have hl4dig : ∀ c ∈ padded.drop 4, c.isDigit = true :=
    fun c hc => hpaddig c (List.mem_of_mem_drop hc)
  have hl4hex : ∀ c ∈ padded.drop 4, isHexChar c = true :=
    fun c hc => isHexChar_of_isDigit c (hl4dig c hc)
  have hl4up : ∀ c ∈ padded.drop 4, isUpperHexChar c = true :=
    fun c hc => isUpperHexChar_of_isDigit c (hl4dig c hc)
  have hm16a : mode.toNat / 16 < 16 := by omega
  have hm16b : mode.toNat % 16 < 16 := by omega
  have hs16a : speed.toNat / 16 < 16 := by omega
  have hs16b : speed.toNat % 16 < 16 := by omega
  set head := "0A0000".toList ++ padded.drop 4 ++ "000E2F00500000".toList
      ++ hex2 mode.toNat ++ hex2 speed.toNat with hhead
  have hheadhex : ∀ c ∈ head, isHexChar c = true := by
    rw [hhead]
    exact forall_mem_append_of _ _ _
      (forall_mem_append_of _ _ _
        (forall_mem_append_of _ _ _ (by decide) hl4hex)
        (by decide))
      (forall_mem_hex2 _ _ (isHexChar_hexDigitU _ hm16a) (isHexChar_hexDigitU _ hm16b))
      |> fun hpre => forall_mem_append_of _ _ _ hpre
        (forall_mem_hex2 _ _ (isHexChar_hexDigitU _ hs16a) (isHexChar_hexDigitU _ hs16b))
  have hhl : head.length = 28 := by
    have e1 : ("0A0000".toList).length = 6 := rfl
    have e2 : ("000E2F00500000".toList).length = 14 := rfl
    have e3 : (hex2 mode.toNat).length = 2 := rfl
    have e4 : (hex2 speed.toNat).length = 2 := rfl
    rw [hhead]
    simp only [List.length_append, e1, e2, e3, e4, hl4]
  obtain ⟨bs, hbs⟩ := Option.isSome_iff_exists.mp
    (bytesFromHex_isSome head hheadhex (by rw [hhl]))
  have hcrc16a : _crc8_eco bs / 16 < 16 := by
    have := crc8_lt bs
    omega
  have hcrc16b : _crc8_eco bs % 16 < 16 := by omega
  refine ⟨bs, ?_, ?_, ?_, ?_, ?_, ?_⟩
  · show bytesFromHex head = some bs
    exact hbs
  · show _eco_trama serial mode speed = .ok (head ++ hex2 (_crc8_eco bs) ++ "0D".toList)
    unfold _eco_trama
    rw [if_neg (by omega), if_neg (by omega)]
    simp only [hnormok]
    rw [hplen, show (8 : Nat) - 4 = 4 from rfl, ← hhead, hbs]
  · show (head ++ hex2 (_crc8_eco bs) ++ "0D".toList).length = 32
    have e5 : (hex2 (_crc8_eco bs)).length = 2 := rfl
    have e6 : ("0D".toList).length = 2 := rfl
    simp only [List.length_append, hhl, e5, e6]
  · show ∀ c ∈ head ++ hex2 (_crc8_eco bs) ++ "0D".toList, isUpperHexChar c = true
    refine forall_mem_append_of _ _ _ (forall_mem_append_of _ _ _ ?_ ?_) (by decide)
    · rw [hhead]
      exact forall_mem_append_of _ _ _
        (forall_mem_append_of _ _ _
          (forall_mem_append_of _ _ _ (by decide) hl4up)
          (by decide))
        (forall_mem_hex2 _ _ (isUpperHexChar_hexDigitU _ hm16a)
          (isUpperHexChar_hexDigitU _ hm16b))
        |> fun hpre => forall_mem_append_of _ _ _ hpre
          (forall_mem_hex2 _ _ (isUpperHexChar_hexDigitU _ hs16a)
            (isUpperHexChar_hexDigitU _ hs16b))
    · exact forall_mem_hex2 _ _ (isUpperHexChar_hexDigitU _ hcrc16a)
        (isUpperHexChar_hexDigitU _ hcrc16b)
  · show ((head ++ hex2 (_crc8_eco bs) ++ "0D".toList).drop 6).take 4 = padded.drop 4
    have hfull : head ++ hex2 (_crc8_eco bs) ++ "0D".toList
        = "0A0000".toList ++ (padded.drop 4 ++ ("000E2F00500000".toList
            ++ (hex2 mode.toNat ++ (hex2 speed.toNat
              ++ (hex2 (_crc8_eco bs) ++ "0D".toList))))) := by
      rw [hhead]
      simp [List.append_assoc]
    rw [hfull, List.drop_left' (show ("0A0000".toList).length = 6 from rfl),
      List.take_left' hl4]
  · exact ⟨head ++ hex2 (_crc8_eco bs), rfl⟩

/-- C4: for every mode and speed in 0..255 and every serial whose digit
characters (non-digit noise stripped) number 1 to 8, `_eco_trama` returns a
32-character uppercase hex string laid out as 0A0000, the last 4 digits of the
left-zero-padded 8-digit serial, 000E2F0050, 0000, mode and speed as two hex
digits each, the checksum as two hex digits, and 0D, where the checksum byte
is the CRC-8 of the raw bytes of everything before it; the string therefore
ends in 0D and its characters 7 to 10 recover the last 4 digits of the padded
serial. -/
theorem eco_frame_layout (serial : List Char) (mode speed : Int)
    (hm0 : 0 ≤ mode) (hm1 : mode ≤ 255) (hs0 : 0 ≤ speed) (hs1 : speed ≤ 255)
    (hd1 : 1 ≤ (serial.filter Char.isDigit).length)
    (hd8 : (serial.filter Char.isDigit).length ≤ 8) :
    ∃ bs : List Nat,
      bytesFromHex ("0A0000".toList
          ++ (List.replicate (8 - (serial.filter Char.isDigit).length) '0'
              ++ serial.filter Char.isDigit).drop 4
          ++ ("000E2F0050".toList ++ "0000".toList)
          ++ hex2 mode.toNat ++ hex2 speed.toNat) = some bs
      ∧ _eco_trama serial mode speed
          = .ok ("0A0000".toList
              ++ (List.replicate (8 - (serial.filter Char.isDigit).length) '0'
                  ++ serial.filter Char.isDigit).drop 4
              ++ ("000E2F0050".toList ++ "0000".toList)
              ++ hex2 mode.toNat ++ hex2 speed.toNat ++ hex2 (_crc8_eco bs) ++ "0D".toList)
      ∧ ("0A0000".toList
          ++ (List.replicate (8 - (serial.filter Char.isDigit).length) '0'
              ++ serial.filter Char.isDigit).drop 4
          ++ ("000E2F0050".toList ++ "0000".toList)
          ++ hex2 mode.toNat ++ hex2 speed.toNat ++ hex2 (_crc8_eco bs)
          ++ "0D".toList).length = 32
      ∧ (∀ c ∈ "0A0000".toList
          ++ (List.replicate (8 - (serial.filter Char.isDigit).length) '0'
              ++ serial.filter Char.isDigit).drop 4
          ++ ("000E2F0050".toList ++ "0000".toList)
          ++ hex2 mode.toNat ++ hex2 speed.toNat ++ hex2 (_crc8_eco bs) ++ "0D".toList,
          isUpperHexChar c = true)
      ∧ (("0A0000".toList
          ++ (List.replicate (8 - (serial.filter Char.isDigit).length) '0'
              ++ serial.filter Char.isDigit).drop 4
          ++ ("000E2F0050".toList ++ "0000".toList)
          ++ hex2 mode.toNat ++ hex2 speed.toNat ++ hex2 (_crc8_eco bs)
          ++ "0D".toList).drop 6).take 4
          = (List.replicate (8 - (serial.filter Char.isDigit).length) '0'
              ++ serial.filter Char.isDigit).drop 4
      ∧ ∃ stem, "0A0000".toList
          ++ (List.replicate (8 - (serial.filter Char.isDigit).length) '0'
              ++ serial.filter Char.isDigit).drop 4
          ++ ("000E2F0050".toList ++ "0000".toList)
          ++ hex2 mode.toNat ++ hex2 speed.toNat ++ hex2 (_crc8_eco bs) ++ "0D".toList
          = stem ++ "0D".toList := by
  have hplen : (List.replicate (8 - (serial.filter Char.isDigit).length) '0'
      ++ serial.filter Char.isDigit).length = 8 := by
    simp only [List.length_append, List.length_replicate]
    omega
  have hpaddig : ∀ c ∈ List.replicate (8 - (serial.filter Char.isDigit).length) '0'
      ++ serial.filter Char.isDigit, c.isDigit = true := by
    intro c hc
    rcases List.mem_append.mp hc with hc | hc
    · rw [List.eq_of_mem_replicate hc]
      decide
    · exact (List.mem_filter.mp hc).2
  exact eco_trama_ok_aux serial mode speed _ hm0 hm1 hs0 hs1
    (normalize_eco_serial_ok serial hd1 hd8) hplen hpaddig

/-- Witness for the C4 theorem at serial 123, mode 1, speed 2. -/
theorem eco_frame_layout_witness :
    (0 : Int) ≤ 1 ∧ (1 : Int) ≤ 255 ∧ (0 : Int) ≤ 2 ∧ (2 : Int) ≤ 255
      ∧ 1 ≤ (("123".toList).filter Char.isDigit).length
      ∧ (("123".toList).filter Char.isDigit).length ≤ 8
      ∧ ∃ bs : List Nat,
          bytesFromHex ("0A0000".toList
              ++ (List.replicate (8 - (("123".toList).filter Char.isDigit).length) '0'
                  ++ ("123".toList).filter Char.isDigit).drop 4
              ++ ("000E2F0050".toList ++ "0000".toList)
              ++ hex2 (1 : Int).toNat ++ hex2 (2 : Int).toNat) = some bs
            ∧ _eco_trama ("123".toList) 1 2
                = .ok ("0A0000".toList
                    ++ (List.replicate (8 - (("123".toList).filter Char.isDigit).length) '0'
                        ++ ("123".toList).filter Char.isDigit).drop 4
                    ++ ("000E2F0050".toList ++ "0000".toList)
                    ++ hex2 (1 : Int).toNat ++ hex2 (2 : Int).toNat
                    ++ hex2 (_crc8_eco bs) ++ "0D".toList) :=
  ⟨by omega, by omega, by omega, by omega, by decide, by decide,
    match eco_frame_layout ("123".toList) 1 2 (by omega) (by omega) (by omega) (by omega)
        (by decide) (by decide) with
    | ⟨bs, h1, h2, _, _, _, _⟩ => ⟨bs, h1, h2⟩⟩

/-- Session with a full cache, used to exercise the NO_AUTH path. -/
def staleSession : ClientState :=
  { auth_token := some "tok", user_id := some "42", house_id := some "7",
    c800_ids := ["10"], eco_ids := ["20"] }

/-- HTTP-success discovery envelope carrying the NO_AUTH status marker. -/
def noAuthEnvelope : JsonVal := .obj [("status", .str "NO_AUTH")]

/-- Counterexample to C1: a discovery call answered with an HTTP-success
envelope whose status is NO_AUTH raises the authentication error, but the
session is not cleared — the raise happens in the caller after `_request`
returned, outside the clearing handler of api.py:520-526 — so the stale token
(and every other session field) survives, and a subsequent call would reuse
it instead of re-authenticating. -/
theorem no_auth_not_cleared_counterexample :
    async_fetch_house_and_split_device_ids staleSession [.ok noAuthEnvelope]
        = (staleSession, [], .error (.authentication "Authentication expired"))
      ∧ staleSession.auth_token = some "tok"
      ∧ staleSession.auth_token ≠ none := by
  refine ⟨rfl, rfl, ?_⟩
  intro h
  exact Option.noConfusion h

/-- C1 amended: when a discovery response envelope carries the NO_AUTH status
marker, the client raises the authentication error but leaves the whole
session untouched (token, user id, house id and both device-id lists keep
their values), so the next public call does not re-authenticate first; the
full session reset happens only when the transport layer itself reports an
authentication failure (HTTP 401 or 403) during a request. -/
theorem no_auth_raises_without_clearing (st : ClientState) (payload : JsonVal)
    (htok : optStrFalsy st.auth_token = false)
    (huid : optStrFalsy st.user_id = false)
    (hobj : ∃ fields, payload = .obj fields)
    (hna : jsonFieldEqStr payload "status" "NO_AUTH" = true) :
    (∀ rest : List HttpResult,
        async_fetch_house_and_split_device_ids st (.ok payload :: rest)
          = (st, rest, .error (.authentication "Authentication expired")))
      ∧ (∀ rest : List HttpResult,
          _request_raw st (.authFail :: rest)
            = (clearedSession, rest, .error (.authentication "Invalid credentials"))) := by
  obtain ⟨fields, rfl⟩ := hobj
  refine ⟨?_, fun rest => rfl⟩
  intro rest
  unfold async_fetch_house_and_split_device_ids
  rw [huid]
  unfold fetchHouseCore _request _request_raw
  rw [htok]
  simp [hna]

/-- Witness for the amended C1 theorem at the concrete stale session and
NO_AUTH envelope. -/
theorem no_auth_raises_without_clearing_witness :
    optStrFalsy staleSession.auth_token = false
      ∧ optStrFalsy staleSession.user_id = false
      ∧ jsonFieldEqStr noAuthEnvelope "status" "NO_AUTH" = true
      ∧ async_fetch_house_and_split_device_ids staleSession [.ok noAuthEnvelope]
          = (staleSession, [], .error (.authentication "Authentication expired")) :=
  ⟨rfl, rfl, rfl,
    (no_auth_raises_without_clearing staleSession noAuthEnvelope rfl rfl ⟨_, rfl⟩ rfl).1 []⟩

/-- C2 (modelled from the spec, no endpoint negotiator exists under src/):
trying the configured path variants in order, an authentication-class failure
propagates immediately regardless of any later variants, a success returns
immediately, and when every variant fails with non-authentication errors the
error finally raised is the last one. -/
theorem negotiator_fallback (α : Type) :
    (∀ (pre : List (AttemptOutcome α)) (e : ApiError) (rest : List (AttemptOutcome α)),
        (∀ o ∈ pre, isOtherFailure o = true) →
        negotiate (pre ++ .authFailure e :: rest) none = .error e)
      ∧ (∀ (pre : List (AttemptOutcome α)) (v : α) (rest : List (AttemptOutcome α)),
          (∀ o ∈ pre, isOtherFailure o = true) →
          negotiate (pre ++ .success v :: rest) none = .ok v)
      ∧ (∀ (pre : List (AttemptOutcome α)) (e : ApiError),
          (∀ o ∈ pre, isOtherFailure o = true) →
          negotiate (pre ++ [.otherFailure e]) none = .error e) := by
  have haux : ∀ (pre : List (AttemptOutcome α)), (∀ o ∈ pre, isOtherFailure o = true) →
      ∀ (l : List (AttemptOutcome α)) (acc : Option ApiError),
        ∃ acc', negotiate (pre ++ l) acc = negotiate l acc' := by
    intro pre
    induction pre with
    | nil => exact fun _ l acc => ⟨acc, rfl⟩
    | cons o t ih =>
        intro h l acc
        have ho : isOtherFailure o = true := h o (by simp)
        have ht : ∀ o' ∈ t, isOtherFailure o' = true := fun o' ho' => h o' (by simp [ho'])
        cases o with
        | otherFailure e' => exact ih ht l (some e')
        | authFailure e' => simp [isOtherFailure] at ho
        | success v => simp [isOtherFailure] at ho
  refine ⟨?_, ?_, ?_⟩
  · intro pre e rest hpre
    obtain ⟨acc', hacc⟩ := haux pre hpre (.authFailure e :: rest) none
    rw [hacc]
    rfl
  · intro pre v rest hpre
    obtain ⟨acc', hacc⟩ := haux pre hpre (.success v :: rest) none
    rw [hacc]
    rfl
  · intro pre e hpre
    obtain ⟨acc', hacc⟩ := haux pre hpre [.otherFailure e] none
    rw [hacc]
    rfl

/-- Witness for the C2 theorem at concrete outcome lists: two communication
failures followed by an authentication failure, a success, or a final
communication failure. -/
theorem negotiator_fallback_witness :
    negotiate ([.otherFailure (.communication "one"), .otherFailure (.communication "two")]
        ++ AttemptOutcome.authFailure (α := Nat) (.authentication "bad") :: []) none
        = .error (.authentication "bad")
      ∧ negotiate ([.otherFailure (.communication "one"), .otherFailure (.communication "two")]
          ++ AttemptOutcome.success (5 : Nat) :: []) none = .ok 5
      ∧ negotiate ([.otherFailure (.communication "one"), .otherFailure (.communication "two")]
          ++ [AttemptOutcome.otherFailure (α := Nat) (.communication "three")]) none
          = .error (.communication "three") :=
  ⟨(negotiator_fallback Nat).1 _ _ _ (by intro o ho; fin_cases ho <;> rfl),
    (negotiator_fallback Nat).2.1 _ _ _ (by intro o ho; fin_cases ho <;> rfl),
    (negotiator_fallback Nat).2.2 _ _ (by intro o ho; fin_cases ho <;> rfl)⟩

end Intelliclima
